import Mathlib

/-!
chika log: a verification development

A shallow embedding of `include/chika/chika_log.h`, `include/chika/split_sink.h`
and `src/chika_log.cc`, followed by theorems about the pattern builder, the
default configuration, the sink set, the process-wide registry and the fatal
escalation path.

Conventions of the embedding:
* `std::string` is `String`; `+=` is `String.append`.
* C strings (what `getenv` returns) are `List Char` without the terminating NUL;
  the end of the list stands for the terminator.
* Effects (printing, flushing, aborting) are recorded in explicit traces.
* An out-of-bounds array access is `none`.
-/

namespace chika

/-! ## Pattern builder (`chika_log.h`, lines 23-104) -/

/-- The class `LogFormat`: a finished pattern. -/
structure LogFormat where
  pattern_ : String
  deriving DecidableEq

/-- The accessor `LogFormat::pattern()`. -/
def LogFormat.pattern (f : LogFormat) : String := f.pattern_

/-- The class `LogFormatBuilder`; its only member is `pattern_`. The
`reserve(64)` of the default constructor changes the capacity only, which no
operation of the class observes. -/
structure LogFormatBuilder where
  pattern_ : String
  deriving DecidableEq

namespace LogFormatBuilder

/-- The default constructor `LogFormatBuilder()`. -/
def ctor : LogFormatBuilder := ⟨""⟩

/-- The constructor `LogFormatBuilder(std::string pattern)`. -/
def ctor_pattern (pattern : String) : LogFormatBuilder := ⟨pattern⟩

/-- The member `AddString`: `pattern_ += str; return *this`. -/
def AddString (b : LogFormatBuilder) (str : String) : LogFormatBuilder :=
  ⟨b.pattern_ ++ str⟩

/-- The helper `ADD_PATTERN_STR(str__)`: `pattern_ += str__; return *this`. -/
def ADD_PATTERN_STR (b : LogFormatBuilder) (str : String) : LogFormatBuilder :=
  ⟨b.pattern_ ++ str⟩

def AddContent (b : LogFormatBuilder) : LogFormatBuilder := b.ADD_PATTERN_STR "%v"
def AddThreadId (b : LogFormatBuilder) : LogFormatBuilder := b.ADD_PATTERN_STR "%t"
def AddProcessId (b : LogFormatBuilder) : LogFormatBuilder := b.ADD_PATTERN_STR "%P"
def AddLoggerName (b : LogFormatBuilder) : LogFormatBuilder := b.ADD_PATTERN_STR "%n"
def AddLogLevel (b : LogFormatBuilder) : LogFormatBuilder := b.ADD_PATTERN_STR "%l"
def AddYear (b : LogFormatBuilder) : LogFormatBuilder := b.ADD_PATTERN_STR "%Y"
def AddMonth (b : LogFormatBuilder) : LogFormatBuilder := b.ADD_PATTERN_STR "%m"
def AddDay (b : LogFormatBuilder) : LogFormatBuilder := b.ADD_PATTERN_STR "%d"
def AddHour (b : LogFormatBuilder) : LogFormatBuilder := b.ADD_PATTERN_STR "%H"
def AddMinute (b : LogFormatBuilder) : LogFormatBuilder := b.ADD_PATTERN_STR "%M"
def AddSecond (b : LogFormatBuilder) : LogFormatBuilder := b.ADD_PATTERN_STR "%S"
def AddMicroSecond (b : LogFormatBuilder) : LogFormatBuilder := b.ADD_PATTERN_STR "%f"
def AddNanoSecond (b : LogFormatBuilder) : LogFormatBuilder := b.ADD_PATTERN_STR "%F"
def AddPercentageSign (b : LogFormatBuilder) : LogFormatBuilder := b.ADD_PATTERN_STR "%%"
def AddSourceFileName (b : LogFormatBuilder) : LogFormatBuilder := b.ADD_PATTERN_STR "%s"
def AddFullPathSourceFileName (b : LogFormatBuilder) : LogFormatBuilder :=
  b.ADD_PATTERN_STR "%g"
def AddFunctionName (b : LogFormatBuilder) : LogFormatBuilder := b.ADD_PATTERN_STR "%!"
def AddLineNumber (b : LogFormatBuilder) : LogFormatBuilder := b.ADD_PATTERN_STR "%#"
def AddElapsedTimeMs (b : LogFormatBuilder) : LogFormatBuilder := b.ADD_PATTERN_STR "%o"
def AddElapsedTimeUs (b : LogFormatBuilder) : LogFormatBuilder := b.ADD_PATTERN_STR "%i"
def AddElapsedTimeNs (b : LogFormatBuilder) : LogFormatBuilder := b.ADD_PATTERN_STR "%u"
def AddElapsedTimeSec (b : LogFormatBuilder) : LogFormatBuilder := b.ADD_PATTERN_STR "%O"
def AddColorBegin (b : LogFormatBuilder) : LogFormatBuilder := b.ADD_PATTERN_STR "%^"
def AddColorEnd (b : LogFormatBuilder) : LogFormatBuilder := b.ADD_PATTERN_STR "%$"

/-- The member `Build()`: `return LogFormat(*this)`, whose constructor takes
over the builder's `pattern_`. -/
def Build (b : LogFormatBuilder) : LogFormat := ⟨b.pattern_⟩

end LogFormatBuilder

/-- One call of an `Add*` member of the builder. -/
inductive AddCall where
  | AddString (str : String)
  | AddContent | AddThreadId | AddProcessId | AddLoggerName | AddLogLevel
  | AddYear | AddMonth | AddDay | AddHour | AddMinute | AddSecond
  | AddMicroSecond | AddNanoSecond | AddPercentageSign
  | AddSourceFileName | AddFullPathSourceFileName | AddFunctionName | AddLineNumber
  | AddElapsedTimeMs | AddElapsedTimeUs | AddElapsedTimeNs | AddElapsedTimeSec
  | AddColorBegin | AddColorEnd
  deriving DecidableEq

/-- Performing one call on a builder: dispatch to the member of that name. -/
def AddCall.perform (b : LogFormatBuilder) : AddCall → LogFormatBuilder
  | .AddString str => b.AddString str
  | .AddContent => b.AddContent
  | .AddThreadId => b.AddThreadId
  | .AddProcessId => b.AddProcessId
  | .AddLoggerName => b.AddLoggerName
  | .AddLogLevel => b.AddLogLevel
  | .AddYear => b.AddYear
  | .AddMonth => b.AddMonth
  | .AddDay => b.AddDay
  | .AddHour => b.AddHour
  | .AddMinute => b.AddMinute
  | .AddSecond => b.AddSecond
  | .AddMicroSecond => b.AddMicroSecond
  | .AddNanoSecond => b.AddNanoSecond
  | .AddPercentageSign => b.AddPercentageSign
  | .AddSourceFileName => b.AddSourceFileName
  | .AddFullPathSourceFileName => b.AddFullPathSourceFileName
  | .AddFunctionName => b.AddFunctionName
  | .AddLineNumber => b.AddLineNumber
  | .AddElapsedTimeMs => b.AddElapsedTimeMs
  | .AddElapsedTimeUs => b.AddElapsedTimeUs
  | .AddElapsedTimeNs => b.AddElapsedTimeNs
  | .AddElapsedTimeSec => b.AddElapsedTimeSec
  | .AddColorBegin => b.AddColorBegin
  | .AddColorEnd => b.AddColorEnd

/-- A chain of calls `b.c1().c2()...`, performed left to right. -/
def performAll (b : LogFormatBuilder) (calls : List AddCall) : LogFormatBuilder :=
  calls.foldl AddCall.perform b

/-- The directive table as the specification words it: the text each call
stands for (a literal for `AddString`, a two-character token otherwise). -/
def AddCall.text : AddCall → String
  | .AddString str => str
  | .AddContent => "%v"
  | .AddThreadId => "%t"
  | .AddProcessId => "%P"
  | .AddLoggerName => "%n"
  | .AddLogLevel => "%l"
  | .AddYear => "%Y"
  | .AddMonth => "%m"
  | .AddDay => "%d"
  | .AddHour => "%H"
  | .AddMinute => "%M"
  | .AddSecond => "%S"
  | .AddMicroSecond => "%f"
  | .AddNanoSecond => "%F"
  | .AddPercentageSign => "%%"
  | .AddSourceFileName => "%s"
  | .AddFullPathSourceFileName => "%g"
  | .AddFunctionName => "%!"
  | .AddLineNumber => "%#"
  | .AddElapsedTimeMs => "%o"
  | .AddElapsedTimeUs => "%i"
  | .AddElapsedTimeNs => "%u"
  | .AddElapsedTimeSec => "%O"
  | .AddColorBegin => "%^"
  | .AddColorEnd => "%$"

/-- The concatenation, in call order, of the texts of a sequence of calls. -/
def concatTexts (calls : List AddCall) : String :=
  String.join (calls.map AddCall.text)

/-! ## Severities, destinations and the configuration (`chika_log.h`, lines 15-19 and 106-141) -/

/-- Modelled from the spec: the enumeration `spdlog::level::level_enum`
(aliased as `LogLevel`), whose header is not among the sources. The spec gives
a totally ordered enumeration trace < debug < info < warn < error < critical. -/
inductive LogLevel where
  | trace | debug | info | warn | err | critical
  deriving DecidableEq

/-- The integer value of a severity, which `>=` on the enumeration compares. -/
def LogLevel.toNat : LogLevel → Nat
  | .trace => 0 | .debug => 1 | .info => 2 | .warn => 3 | .err => 4 | .critical => 5

/-- Modelled from the spec: the enumeration `spdlog::async_overflow_policy`
(aliased as `AsyncLogOverFlowPolicy`), whose header is not among the sources.
The spec gives block, discard-newest and discard-oldest; the source names the
last one `overrun_oldest`. -/
inductive AsyncLogOverFlowPolicy where
  | block | overrun_oldest | discard_new
  deriving DecidableEq

/-- The enumerator `LOG_DST_CONSOLE = 0x01`. -/
def LOG_DST_CONSOLE : Int := 0x01
/-- The enumerator `LOG_DST_FILE = 0x02`. -/
def LOG_DST_FILE : Int := 0x02
/-- The enumerator `LOG_DST_COLOR = 0x04`. -/
def LOG_DST_COLOR : Int := 0x04

/-- The two C streams the sinks write to. -/
inductive FILE where
  | stdout | stderr
  deriving DecidableEq

/-- Observable effects, recorded in call order. -/
inductive Effect where
  /-- The text `text` written to the stream `dst`. -/
  | print (dst : FILE) (text : String)
  /-- A call `fflush(f)`. -/
  | fflush (f : FILE)
  /-- A record handed to the logger at a severity. -/
  | log (level : LogLevel) (text : String)
  /-- A call `logger_->flush()`. -/
  | flush
  /-- A call `spdlog::shutdown()`. -/
  | shutdown
  /-- A call `abort()`. -/
  | abort
  deriving DecidableEq

/-- The struct `LoggerConfig`, its fields in declaration order. `size_t` and
`uint64_t` fields are `Nat`, `int` fields are `Int`; the error handler is the
trace of effects it performs on a message. -/
structure LoggerConfig where
  rotate_basename : String
  rotate_max_file_num : Nat
  rotate_max_file_size : Nat
  rotate_check_at_first : Bool
  flush_level : LogLevel
  flush_seconds_interval : Nat
  log_dst : Int
  thread_num : Int
  queue_size : Nat
  async_overflow_policy : AsyncLogOverFlowPolicy
  log_format : LogFormat
  log_level : LogLevel
  log_error_handler : String → List Effect

/-! ## Default severity from the environment (`chika_log.cc`, lines 17-29) -/

/-- The terminator of a C string. -/
def NUL : Char := Char.ofNat 0

/-- The C library function `tolower` in the POSIX locale: the letters A to Z
are moved to a to z, every other character is unchanged. -/
def tolower (c : Char) : Int :=
  if 65 ≤ c.toNat ∧ c.toNat ≤ 90 then (c.toNat : Int) + 32 else (c.toNat : Int)

/-- The C library function `strcasecmp` in the POSIX locale: walk both strings,
return the first non-zero difference of the lowered characters, or zero when
the terminator is reached on both sides. The end of a list is the terminator. -/
def strcasecmp : List Char → List Char → Int
  | [], [] => 0
  | [], b :: _ => 0 - tolower b
  | a :: _, [] => tolower a - 0
  | a :: s1, b :: s2 =>
    if tolower a - tolower b ≠ 0 then tolower a - tolower b
    else if a = NUL then 0
    else strcasecmp s1 s2

/-- The function `get_default_log_level`; `env` is the result of
`getenv("CHIKA_LOG")`, with `none` for the null pointer. -/
def get_default_log_level (env : Option (List Char)) : LogLevel :=
  match env with
  | none => LogLevel.info
  | some v =>
    if strcasecmp v "TRACE".data = 0 then LogLevel.trace
    else if strcasecmp v "DEBUG".data = 0 then LogLevel.debug
    else LogLevel.info

/-- A well-formed C string holds no NUL before its end. -/
def NulFree (s : List Char) : Prop := ∀ c ∈ s, c ≠ NUL

instance (s : List Char) : Decidable (NulFree s) := by
  unfold NulFree; infer_instance

/-- Equality ignoring letter case, as the specification words it: the two
strings are the same once every letter is put in lower case. -/
def eqIgnoreCase (a b : List Char) : Prop := a.map Char.toLower = b.map Char.toLower

instance (a b : List Char) : Decidable (eqIgnoreCase a b) := by
  unfold eqIgnoreCase; infer_instance

/-! ## The constructor `LoggerConfig::LoggerConfig` (`chika_log.cc`, lines 36-65) -/

/-- The default error handler: two diagnostics on the error stream (the
`fprintf` format strings hold no conversion, so they are written as they
stand), both streams flushed, then `abort()`. -/
def default_error_handler (_msg : String) : List Effect :=
  [Effect.print FILE.stderr "There are some fatal error happened in chika log\n",
   Effect.print FILE.stderr "Now, abort entire program(Default handling)\n",
   Effect.fflush FILE.stderr,
   Effect.fflush FILE.stdout,
   Effect.abort]

/-- The default constructor of `LoggerConfig`; `env` is the state of the
environment variable read by `get_default_log_level`. -/
def LoggerConfig.ctor (env : Option (List Char)) : LoggerConfig where
  rotate_basename := "chika.log"
  rotate_max_file_num := 10
  rotate_max_file_size := 1 <<< 22
  rotate_check_at_first := false
  flush_level := LogLevel.critical
  flush_seconds_interval := 3
  log_dst := LOG_DST_CONSOLE
  thread_num := 1
  queue_size := 8192 * 2
  async_overflow_policy := AsyncLogOverFlowPolicy.overrun_oldest
  log_format :=
    LogFormatBuilder.ctor
      |>.AddYear |>.AddString "/" |>.AddMonth |>.AddString "/" |>.AddDay |>.AddString "-"
      |>.AddHour |>.AddString ":" |>.AddMinute |>.AddString ":" |>.AddSecond |>.AddString "."
      |>.AddMicroSecond |>.AddString " "
      |>.AddThreadId |>.AddString " "
      |>.AddFunctionName |>.AddString " ["
      |>.AddColorBegin |>.AddLogLevel |>.AddColorEnd |>.AddString "] "
      |>.AddContent |>.AddString " - "
      |>.AddSourceFileName |>.AddString ":" |>.AddLineNumber
      |>.Build
  log_level := get_default_log_level env
  log_error_handler := default_error_handler

/-! ## The console split sink (`split_sink.h`, lines 11-32) -/

/-- The part of `spdlog::details::log_msg` the sink inspects, with the
message text. -/
structure log_msg where
  level : LogLevel
  payload : String
  deriving DecidableEq

/-- The opening brace, which starts a replacement field in a format string. -/
def LBRACE : Char := Char.ofNat 123

/-- The closing brace. -/
def RBRACE : Char := Char.ofNat 125

/-- The library function `fmt::format` on a format string and no arguments,
after the grammar of the fmt library: a doubled brace is rendered as one
brace, any other opening brace starts a replacement field, for which there is
no argument, any other closing brace is unmatched, and every other character is
copied. `none` stands for the exception `fmt::format_error`. -/
def fmt_render : List Char → Option (List Char)
  | [] => some []
  | [c] => if c = LBRACE ∨ c = RBRACE then none else some [c]
  | c :: d :: rest =>
    if c = LBRACE then
      if d = LBRACE then (fmt_render rest).map (fun out => LBRACE :: out) else none
    else if c = RBRACE then
      if d = RBRACE then (fmt_render rest).map (fun out => RBRACE :: out) else none
    else (fmt_render (d :: rest)).map (fun out => c :: out)

/-- How a call ended: the effects performed up to its end, and whether it was
left by the exception `fmt::format_error`. -/
structure Completion where
  trace : List Effect
  format_error : Bool
  deriving DecidableEq

/-- The library function `fmt::print(dst, fmt)` with no further argument: `fmt`
is rendered as a format string and the result written to `dst`; when rendering
raises `fmt::format_error`, nothing is written. -/
def fmt_print (dst : FILE) (fmt : String) (tr : List Effect) : Completion :=
  match fmt_render fmt.data with
  | some out => ⟨tr ++ [Effect.print dst (String.mk out)], false⟩
  | none => ⟨tr, true⟩

/-- The member `ConsoleSplitSink::sink_it_`. The formatter held by the base
sink is the parameter `formatter`; `tr` is the trace of effects so far. The
formatted record is the format string of the `fmt::print` call. -/
def ConsoleSplitSink.sink_it_ (formatter : log_msg → String) (msg : log_msg)
    (tr : List Effect) : Completion :=
  let formatted := formatter msg
  let log_dst := FILE.stdout
  let log_dst := if msg.level.toNat ≥ LogLevel.err.toNat then FILE.stderr else log_dst
  fmt_print log_dst formatted tr

/-- The member `ConsoleSplitSink::flush_`. -/
def ConsoleSplitSink.flush_ (tr : List Effect) : List Effect :=
  tr ++ [Effect.fflush FILE.stderr, Effect.fflush FILE.stdout]

/-- The texts written to one stream, in order. -/
def written (f : FILE) : List Effect → List String
  | [] => []
  | Effect.print dst text :: rest =>
    if dst = f then text :: written f rest else written f rest
  | _ :: rest => written f rest

/-- A text without braces, which `fmt::format` copies as it stands. -/
def BraceFree (s : List Char) : Prop := ∀ c ∈ s, c ≠ LBRACE ∧ c ≠ RBRACE

instance (s : List Char) : Decidable (BraceFree s) := by
  unfold BraceFree; infer_instance

/-! ## The constructor `Logger::Logger` (`chika_log.cc`, lines 67-125) -/

/-- Modelled from the spec: the color constants of the color console sink
(`color_sink->cyan` and the like), whose header is not among the sources. The
spec names cyan, blue, green, yellow and red. -/
inductive AnsiColor where
  | cyan | blue | green | yellow | red
  deriving DecidableEq

/-- Modelled from the spec: the color console sink `ansicolor_sink`, whose
header is not among the sources. It is built from a standard stream, an error
stream and the severity from which the error stream is used, and it keeps a
mapping from severities to colors; `colors_` lists the `set_color` calls
received, oldest first. -/
structure ansicolor_sink where
  target_out : FILE
  target_err : FILE
  err_level : LogLevel
  colors_ : List (LogLevel × AnsiColor)
  deriving DecidableEq

/-- Modelled from the spec: the constructor of the color console sink; no
`set_color` call has been made yet. -/
def ansicolor_sink.ctor (out err : FILE) (lvl : LogLevel) : ansicolor_sink :=
  ⟨out, err, lvl, []⟩

/-- Modelled from the spec: `set_color(level, color)` maps the severity to the
color, replacing what it was mapped to. -/
def ansicolor_sink.set_color (s : ansicolor_sink) (level : LogLevel) (color : AnsiColor) :
    ansicolor_sink :=
  { s with colors_ := s.colors_ ++ [(level, color)] }

/-- The color a severity is mapped to: that of the latest `set_color` call for
it, or `none` when the constructor's choice still stands. -/
def ansicolor_sink.color (s : ansicolor_sink) (level : LogLevel) : Option AnsiColor :=
  (s.colors_.reverse.find? (fun p => p.1 = level)).map (fun p => p.2)

/-- The three sink variants the constructor can create, with the arguments
they are created from. -/
inductive Sink where
  | color_sink (s : ansicolor_sink)
  | split_sink
  | rotating_file_sink (base_filename : String) (max_size : Nat) (max_files : Nat)
      (check_at_first : Bool)
  deriving DecidableEq

/-- The local array `s_level_list`. -/
def s_level_list : List LogLevel :=
  [LogLevel.trace, LogLevel.debug, LogLevel.info, LogLevel.warn, LogLevel.err,
   LogLevel.critical]

/-- The local array `s_level_color`. -/
def s_level_color : List AnsiColor :=
  [AnsiColor.cyan, AnsiColor.blue, AnsiColor.green, AnsiColor.yellow, AnsiColor.red,
   AnsiColor.red]

/-- The local `level_num = sizeof(s_level_list) / sizeof(s_level_list[0])`. -/
def level_num : Nat := s_level_list.length

/-- The loop `for (int i = 0; i < level_num; ++i)
color_sink->set_color(s_level_list[i], s_level_color[i])`; an index outside
either array gives `none`. -/
def install_colors (color_sink : ansicolor_sink) : Option ansicolor_sink :=
  (List.range level_num).foldlM
    (fun sink i => do
      let level ← s_level_list[i]?
      let color ← s_level_color[i]?
      pure (sink.set_color level color))
    color_sink

/-- The first part of the constructor (lines 69-111): the vector `sinks`. -/
def build_sinks (config : LoggerConfig) : Option (List Sink) := do
  let sinks : List Sink := []
  let sinks ←
    if Int.land config.log_dst LOG_DST_CONSOLE ≠ 0 then
      if Int.land config.log_dst LOG_DST_COLOR ≠ 0 then do
        let color_sink := ansicolor_sink.ctor FILE.stdout FILE.stderr LogLevel.err
        let color_sink ← install_colors color_sink
        pure (sinks ++ [Sink.color_sink color_sink])
      else
        pure (sinks ++ [Sink.split_sink])
    else
      pure sinks
  let sinks :=
    if Int.land config.log_dst LOG_DST_FILE ≠ 0 then
      sinks ++ [Sink.rotating_file_sink config.rotate_basename config.rotate_max_file_size
        config.rotate_max_file_num config.rotate_check_at_first]
    else sinks
  pure sinks

/-- The thread pool, with the arguments it is created from. -/
structure thread_pool where
  q_max_items : Nat
  threads_n : Int
  deriving DecidableEq

/-- The asynchronous logger the constructor creates. A setting is `none` until
the setter for it has been called. -/
structure async_logger where
  name : String
  sinks : List Sink
  overflow_policy : AsyncLogOverFlowPolicy
  flush_level : Option LogLevel
  pattern : Option String
  level : Option LogLevel
  error_handler : Option (String → List Effect)

/-- The class `Logger`: its two members, and the period handed to
`spdlog::flush_every`. -/
structure Logger where
  logger_ : async_logger
  thread_pool_ : thread_pool
  flush_interval : Option Nat

namespace Logger

/-- The member `SetFormat(LogFormat const &)`. -/
def SetFormat (l : Logger) (format : LogFormat) : Logger :=
  { l with logger_ := { l.logger_ with pattern := some format.pattern } }

/-- The member `SetLogLevel`. -/
def SetLogLevel (l : Logger) (level : LogLevel) : Logger :=
  { l with logger_ := { l.logger_ with level := some level } }

/-- The member `SetFlushLevel`. -/
def SetFlushLevel (l : Logger) (level : LogLevel) : Logger :=
  { l with logger_ := { l.logger_ with flush_level := some level } }

/-- The member `SetFlushInterval(size_t seconds)`. -/
def SetFlushInterval (l : Logger) (seconds : Nat) : Logger :=
  { l with flush_interval := some seconds }

/-- The constructor `Logger::Logger(LoggerConfig config)`. -/
def ctor (config : LoggerConfig) : Option Logger := do
  let sinks ← build_sinks config
  let thread_pool_ : thread_pool := ⟨config.queue_size, config.thread_num⟩
  let logger_ : async_logger :=
    ⟨"ChikaAsyncLog", sinks, config.async_overflow_policy, none, none, none, none⟩
  let l : Logger := ⟨logger_, thread_pool_, none⟩
  let l := l.SetFlushInterval config.flush_seconds_interval
  let l := l.SetFlushLevel config.flush_level
  let l := l.SetFormat config.log_format
  let l := l.SetLogLevel config.log_level
  let l := { l with logger_ := { l.logger_ with error_handler := some config.log_error_handler } }
  pure l

end Logger

/-! ## The registry (`chika_log.cc`, lines 127-138) -/

/-- The process-wide state: the pointer `p_config` (the address of the
caller's configuration, `none` for the null pointer), the function-local static
`logger` of `get_logger` (`none` until it is initialised), and a count of the
runs of the `Logger` constructor. -/
structure Registry where
  p_config : Option Nat
  logger : Option Logger
  constructions : Nat

/-- The state at process start. -/
def Registry.init : Registry := ⟨none, none, 0⟩

/-- The function `setup_logger_config`: `p_config = &config`, where `addr` is
the address of `config`. -/
def setup_logger_config (addr : Nat) (r : Registry) : Registry :=
  { r with p_config := some addr }

/-- The function `get_logger`. `mem` gives the configuration stored at an
address and `env` is the environment variable the default configuration reads.
The static is initialised on the first call from
`p_config ? *p_config : LoggerConfig()` and returned on every call. -/
def get_logger (mem : Nat → LoggerConfig) (env : Option (List Char)) (r : Registry) :
    Option (Logger × Registry) :=
  match r.logger with
  | some logger => some (logger, r)
  | none => do
    let config := match r.p_config with
      | some addr => mem addr
      | none => LoggerConfig.ctor env
    let logger ← Logger.ctor config
    pure (logger, { r with logger := some logger, constructions := r.constructions + 1 })

/-- One call on the registry. -/
inductive RegistryCall where
  | setup (addr : Nat)
  | get
  deriving DecidableEq

/-- A sequence of calls, run in order; the result lists what each
`get_logger` call returned. -/
def runCalls (mem : Nat → LoggerConfig) (env : Option (List Char)) :
    List RegistryCall → Registry → Option (List Logger × Registry)
  | [], r => some ([], r)
  | RegistryCall.setup addr :: rest, r => runCalls mem env rest (setup_logger_config addr r)
  | RegistryCall.get :: rest, r => do
    let (logger, r1) ← get_logger mem env r
    let (loggers, r2) ← runCalls mem env rest r1
    pure (logger :: loggers, r2)

/-- The configuration address in force when the first `get_logger` call of a
sequence is made: that of the last `setup_logger_config` call before it. -/
def injectedBefore : List RegistryCall → Option Nat → Option Nat
  | [], cur => cur
  | RegistryCall.setup addr :: rest, _ => injectedBefore rest (some addr)
  | RegistryCall.get :: _, cur => cur

/-- The number of `get_logger` calls of a sequence. -/
def countGets (calls : List RegistryCall) : Nat :=
  calls.count RegistryCall.get

/-! ## The logging statements (`chika_log.h`, lines 195-208) -/

/-- A running process: the registry, whether `abort()` has been called, and
the effects performed so far. -/
structure Process where
  registry : Registry
  aborted : Bool
  effects : List Effect

/-- Modelled from the spec: the `SPDLOG_LOGGER_TRACE` to
`SPDLOG_LOGGER_CRITICAL` family of `spdlog.h`, which is not among the sources;
it forwards the record to the given logger at the severity of its name. -/
def SPDLOG_LOGGER (level : LogLevel) (_logger : async_logger) (text : String)
    (p : Process) : Process :=
  { p with effects := p.effects ++ [Effect.log level text] }

/-- The statement `CHIKA_LOG(level, text)`:
`SPDLOG_LOGGER_level(chika::get_logger().logger(), text)`. Nothing runs in a
process that has aborted. -/
def CHIKA_LOG (mem : Nat → LoggerConfig) (env : Option (List Char)) (level : LogLevel)
    (text : String) (p : Process) : Option Process :=
  if p.aborted then some p
  else do
    let (logger, r) ← get_logger mem env p.registry
    pure (SPDLOG_LOGGER level logger.logger_ text { p with registry := r })

/-- The statement `get_logger().Flush()`. -/
def get_logger_Flush (mem : Nat → LoggerConfig) (env : Option (List Char)) (p : Process) :
    Option Process :=
  if p.aborted then some p
  else do
    let (_, r) ← get_logger mem env p.registry
    pure { p with registry := r, effects := p.effects ++ [Effect.flush] }

/-- The statement `spdlog::shutdown()`. -/
def spdlog_shutdown (p : Process) : Process :=
  if p.aborted then p else { p with effects := p.effects ++ [Effect.shutdown] }

/-- The statement `abort()`: the process runs nothing afterwards. -/
def abort (p : Process) : Process :=
  if p.aborted then p else { p with aborted := true, effects := p.effects ++ [Effect.abort] }

/-- The statement `CHIKA_LOG_FATAL(text)`. -/
def CHIKA_LOG_FATAL (mem : Nat → LoggerConfig) (env : Option (List Char)) (text : String)
    (p : Process) : Option Process := do
  let p ← CHIKA_LOG mem env LogLevel.critical text p
  let p ← get_logger_Flush mem env p
  let p := spdlog_shutdown p
  pure (abort p)

/-- A logging statement of a program. -/
inductive LogStmt where
  | log (level : LogLevel) (text : String)
  | fatal (text : String)
  deriving DecidableEq

/-- Running one logging statement. -/
def LogStmt.exec (mem : Nat → LoggerConfig) (env : Option (List Char)) :
    LogStmt → Process → Option Process
  | LogStmt.log level text, p => CHIKA_LOG mem env level text p
  | LogStmt.fatal text, p => CHIKA_LOG_FATAL mem env text p

/-- Running a sequence of logging statements in order. -/
def execAll (mem : Nat → LoggerConfig) (env : Option (List Char)) :
    List LogStmt → Process → Option Process
  | [], p => some p
  | s :: rest, p => (s.exec mem env p).bind (execAll mem env rest)

/-! ### Lemmas on the builder -/

theorem perform_pattern (b : LogFormatBuilder) (c : AddCall) :
    (c.perform b).pattern_ = b.pattern_ ++ c.text := by
  cases c <;> rfl

theorem join_cons (s : String) (l : List String) :
    String.join (s :: l) = s ++ String.join l := by
  have key : ∀ (l : List String) (acc : String),
      List.foldl (fun r s => r ++ s) acc l = acc ++ String.join l := by
    intro l
    induction l with
    | nil => intro acc; simp [String.join]
    | cons x xs ih =>
      intro acc
      simp only [String.join, List.foldl_cons]
      rw [ih (acc ++ x), ih ("" ++ x)]
      simp [String.append_assoc]
  simp only [String.join, List.foldl_cons]
  rw [key l ("" ++ s)]
  simp [String.join]

theorem performAll_pattern (calls : List AddCall) (b : LogFormatBuilder) :
    (performAll b calls).pattern_ = b.pattern_ ++ concatTexts calls := by
  induction calls generalizing b with
  | nil => simp [performAll, concatTexts, String.join]
  | cons c cs ih =>
    have h := ih (c.perform b)
    simp only [performAll, List.foldl_cons] at h ⊢
    rw [h, perform_pattern, concatTexts, concatTexts, List.map_cons, join_cons,
      String.append_assoc]


/-! ### Lemmas on `strcasecmp` -/

theorem char_toNat_inj {a b : Char} (h : a.toNat = b.toNat) : a = b := by
  rw [← Char.ofNat_toNat a, ← Char.ofNat_toNat b, h]

theorem toLower_toNat (c : Char) : (c.toLower.toNat : Int) = tolower c := by
  unfold tolower Char.toLower
  by_cases h : 65 ≤ c.toNat ∧ c.toNat ≤ 90
  · obtain ⟨h1, h2⟩ := h
    have hc : c = Char.ofNat c.toNat := (Char.ofNat_toNat c).symm
    generalize c.toNat = n at hc h1 h2
    subst hc
    interval_cases n <;> rfl
  · have h2 : ¬ (c.toNat ≥ 65 ∧ c.toNat ≤ 90) := h
    simp only [h, h2, if_false]

theorem tolower_eq_iff (a b : Char) : tolower a = tolower b ↔ a.toLower = b.toLower := by
  rw [← toLower_toNat, ← toLower_toNat]
  constructor
  · intro h
    exact char_toNat_inj (by exact_mod_cast h)
  · intro h
    rw [h]

theorem tolower_ne_zero {a : Char} (h : a ≠ NUL) : tolower a ≠ 0 := by
  intro h0
  apply h
  apply char_toNat_inj
  have : NUL.toNat = 0 := rfl
  rw [this]
  unfold tolower at h0
  split at h0 <;> omega

theorem strcasecmp_eq_zero_iff (a b : List Char) (ha : NulFree a) (hb : NulFree b) :
    strcasecmp a b = 0 ↔ eqIgnoreCase a b := by
  unfold eqIgnoreCase
  induction a generalizing b with
  | nil =>
    cases b with
    | nil => simp [strcasecmp]
    | cons y ys =>
      have hy : tolower y ≠ 0 := tolower_ne_zero (hb y (List.mem_cons_self _ _))
      simp only [strcasecmp, List.map_nil, List.map_cons]
      constructor
      · intro h; omega
      · intro h; cases h
  | cons x xs ih =>
    have hx : x ≠ NUL := ha x (List.mem_cons_self _ _)
    have hxs : NulFree xs := fun c hc => ha c (List.mem_cons_of_mem _ hc)
    cases b with
    | nil =>
      have hx0 : tolower x ≠ 0 := tolower_ne_zero hx
      simp only [strcasecmp, List.map_nil, List.map_cons]
      constructor
      · intro h; omega
      · intro h; cases h
    | cons y ys =>
      have hys : NulFree ys := fun c hc => hb c (List.mem_cons_of_mem _ hc)
      simp only [strcasecmp, List.map_cons, List.cons.injEq]
      by_cases hd : tolower x - tolower y = 0
      · have he : tolower x = tolower y := by omega
        rw [if_neg (by simpa using hd), if_neg hx, ih ys hxs hys]
        simp [(tolower_eq_iff x y).1 he]
      · rw [if_pos hd]
        constructor
        · intro h; exact absurd h hd
        · intro h
          exact absurd (by rw [(tolower_eq_iff x y).2 h.1]; simp) hd

/-! ### Lemmas on the effect traces -/

theorem written_append (f : FILE) (tr1 tr2 : List Effect) :
    written f (tr1 ++ tr2) = written f tr1 ++ written f tr2 := by
  induction tr1 with
  | nil => rfl
  | cons e rest ih =>
    cases e with
    | print dst text =>
      by_cases h : dst = f
      · simp [written, h, ih]
      · simp [written, h, ih]
    | fflush g => simpa [written] using ih
    | log l t => simpa [written] using ih
    | flush => simpa [written] using ih
    | shutdown => simpa [written] using ih
    | abort => simpa [written] using ih

theorem fmt_render_brace_free (s : List Char) (h : BraceFree s) : fmt_render s = some s := by
  induction s with
  | nil => rfl
  | cons c rest ih =>
    have hc := h c (List.mem_cons_self _ _)
    have hrest : BraceFree rest := fun x hx => h x (List.mem_cons_of_mem _ hx)
    cases rest with
    | nil => simp [fmt_render, hc.1, hc.2]
    | cons d rest2 =>
      have := ih hrest
      simp [fmt_render, hc.1, hc.2, this]

/-! ## The pattern builder -/

/-- C1: for every finite sequence of Add* calls on a default-constructed
builder, `Build()` returns a format whose `pattern()` is the concatenation, in
call order, of the texts of the calls (the argument for `AddString`, the token
of the directive table otherwise); the empty sequence builds the empty
pattern. -/
theorem build_pattern_is_concat (calls : List AddCall) :
    (performAll LogFormatBuilder.ctor calls).Build.pattern = concatTexts calls
    ∧ (performAll LogFormatBuilder.ctor []).Build.pattern = "" := by
  refine ⟨?_, rfl⟩
  show (performAll LogFormatBuilder.ctor calls).pattern_ = concatTexts calls
  rw [performAll_pattern]
  show "" ++ concatTexts calls = concatTexts calls
  simp

/-- C10: a builder constructed from an initial pattern `p` and given any
sequence of Add* calls builds `p` followed by the concatenation of the texts of
the calls; with no call it builds exactly `p`; and the default-constructed
builder builds what the builder constructed from the empty string builds. -/
theorem build_from_initial_pattern (p : String) (calls : List AddCall) :
    (performAll (LogFormatBuilder.ctor_pattern p) calls).Build.pattern
        = p ++ concatTexts calls
    ∧ (performAll (LogFormatBuilder.ctor_pattern p) []).Build.pattern = p
    ∧ (performAll LogFormatBuilder.ctor calls).Build.pattern
        = (performAll (LogFormatBuilder.ctor_pattern "") calls).Build.pattern := by
  refine ⟨?_, rfl, rfl⟩
  show (performAll (LogFormatBuilder.ctor_pattern p) calls).pattern_ = p ++ concatTexts calls
  rw [performAll_pattern]
  rfl

/-! ## The default configuration -/

/-- C2: whatever the environment, the `log_format` of a default-constructed
`LoggerConfig` has exactly the pattern
"%Y/%m/%d-%H:%M:%S.%f %t %! [%^%l%$] %v - %s:%#", with the short source file
name `%s`. -/
theorem default_pattern (env : Option (List Char)) :
    (LoggerConfig.ctor env).log_format.pattern
      = "%Y/%m/%d-%H:%M:%S.%f %t %! [%^%l%$] %v - %s:%#" := by
  rfl

/-- C3: a default-constructed `LoggerConfig` has the documented defaults:
basename "chika.log", maximum file size 4194304 = 4 MiB, ten files, no check at
first, flush level critical, flush interval 3 seconds, destination
`LOG_DST_CONSOLE` = 1 with neither the file bit nor the color bit, one thread,
queue size 16384, policy overrun_oldest, and the level chosen from the
environment. -/
theorem default_config_values (env : Option (List Char)) :
    (LoggerConfig.ctor env).rotate_basename = "chika.log"
    ∧ (LoggerConfig.ctor env).rotate_max_file_size = 4194304
    ∧ (LoggerConfig.ctor env).rotate_max_file_size = 4 * 1024 * 1024
    ∧ (LoggerConfig.ctor env).rotate_max_file_num = 10
    ∧ (LoggerConfig.ctor env).rotate_check_at_first = false
    ∧ (LoggerConfig.ctor env).flush_level = LogLevel.critical
    ∧ (LoggerConfig.ctor env).flush_seconds_interval = 3
    ∧ (LoggerConfig.ctor env).log_dst = LOG_DST_CONSOLE
    ∧ (LoggerConfig.ctor env).log_dst = 1
    ∧ Int.land (LoggerConfig.ctor env).log_dst LOG_DST_FILE = 0
    ∧ Int.land (LoggerConfig.ctor env).log_dst LOG_DST_COLOR = 0
    ∧ (LoggerConfig.ctor env).thread_num = 1
    ∧ (LoggerConfig.ctor env).queue_size = 16384
    ∧ (LoggerConfig.ctor env).async_overflow_policy = AsyncLogOverFlowPolicy.overrun_oldest
    ∧ (LoggerConfig.ctor env).log_level = get_default_log_level env := by
  refine ⟨rfl, rfl, rfl, rfl, rfl, rfl, rfl, rfl, rfl, ?_, ?_, rfl, rfl, rfl, rfl⟩
  · show Int.land 1 2 = 0
    decide
  · show Int.land 1 4 = 0
    decide

/-! ## The default severity -/

/-- C4: for every state of the environment variable (unset, or set to a C
string), `get_default_log_level` returns trace when the value equals "TRACE"
ignoring letter case, debug when it equals "DEBUG" ignoring letter case, and
info when the variable is unset or holds any other value; so the result is one
of trace, debug, info and never warn, err or critical, a value whose length is
not five gives info, and "TRACE " and "DEBUGGING" give info. -/
theorem get_default_log_level_spec (env : Option (List Char))
    (hwf : ∀ v, env = some v → NulFree v) :
    (∀ v, env = some v → eqIgnoreCase v "TRACE".data →
        get_default_log_level env = LogLevel.trace)
    ∧ (∀ v, env = some v → eqIgnoreCase v "DEBUG".data →
        get_default_log_level env = LogLevel.debug)
    ∧ ((env = none ∨ ∃ v, env = some v ∧ ¬ eqIgnoreCase v "TRACE".data
          ∧ ¬ eqIgnoreCase v "DEBUG".data) →
        get_default_log_level env = LogLevel.info)
    ∧ (∀ v, env = some v → v.length ≠ 5 → get_default_log_level env = LogLevel.info)
    ∧ get_default_log_level env ∈ [LogLevel.trace, LogLevel.debug, LogLevel.info]
    ∧ get_default_log_level env ∉ [LogLevel.warn, LogLevel.err, LogLevel.critical]
    ∧ get_default_log_level (some "TRACE ".data) = LogLevel.info
    ∧ get_default_log_level (some "DEBUGGING".data) = LogLevel.info := by
  have hT : NulFree "TRACE".data := by decide
  have hD : NulFree "DEBUG".data := by decide
  have hlen : ∀ a b : List Char, eqIgnoreCase a b → a.length = b.length := by
    intro a b h
    have := congrArg List.length h
    simpa using this
  have hrange : get_default_log_level env ∈ [LogLevel.trace, LogLevel.debug, LogLevel.info] := by
    unfold get_default_log_level
    cases env with
    | none => simp
    | some v => dsimp only; split_ifs <;> simp
  refine ⟨?_, ?_, ?_, ?_, hrange, ?_, by decide, by decide⟩
  · intro v hv h
    subst hv
    have h0 := (strcasecmp_eq_zero_iff v _ (hwf v rfl) hT).2 h
    simp [get_default_log_level, h0]
  · intro v hv h
    subst hv
    have h0 := (strcasecmp_eq_zero_iff v _ (hwf v rfl) hD).2 h
    have h1 : ¬ strcasecmp v "TRACE".data = 0 := by
      intro hc
      have hE := (strcasecmp_eq_zero_iff v _ (hwf v rfl) hT).1 hc
      unfold eqIgnoreCase at h hE
      rw [hE] at h
      revert h
      decide
    simp [get_default_log_level, h0, h1]
  · rintro (hn | ⟨v, hv, h1, h2⟩)
    · subst hn; rfl
    · subst hv
      have n1 : ¬ strcasecmp v "TRACE".data = 0 :=
        fun hc => h1 ((strcasecmp_eq_zero_iff v _ (hwf v rfl) hT).1 hc)
      have n2 : ¬ strcasecmp v "DEBUG".data = 0 :=
        fun hc => h2 ((strcasecmp_eq_zero_iff v _ (hwf v rfl) hD).1 hc)
      simp [get_default_log_level, n1, n2]
  · intro v hv hl
    subst hv
    have n1 : ¬ strcasecmp v "TRACE".data = 0 :=
      fun hc => hl (hlen _ _ ((strcasecmp_eq_zero_iff v _ (hwf v rfl) hT).1 hc))
    have n2 : ¬ strcasecmp v "DEBUG".data = 0 :=
      fun hc => hl (hlen _ _ ((strcasecmp_eq_zero_iff v _ (hwf v rfl) hD).1 hc))
    simp [get_default_log_level, n1, n2]
  · intro hmem
    have h3 : get_default_log_level env = LogLevel.trace ∨ get_default_log_level env = LogLevel.debug
        ∨ get_default_log_level env = LogLevel.info := by simpa using hrange
    rcases h3 with h | h | h <;> rw [h] at hmem <;> revert hmem <;> decide

/-- The default severity statement, applied to the value "Trace". -/
theorem get_default_log_level_spec_witness :
    (∀ v, some "Trace".data = some v → NulFree v)
    ∧ ((∀ v, some "Trace".data = some v → eqIgnoreCase v "TRACE".data →
        get_default_log_level (some "Trace".data) = LogLevel.trace)
    ∧ (∀ v, some "Trace".data = some v → eqIgnoreCase v "DEBUG".data →
        get_default_log_level (some "Trace".data) = LogLevel.debug)
    ∧ ((some "Trace".data = none ∨ ∃ v, some "Trace".data = some v
          ∧ ¬ eqIgnoreCase v "TRACE".data ∧ ¬ eqIgnoreCase v "DEBUG".data) →
        get_default_log_level (some "Trace".data) = LogLevel.info)
    ∧ (∀ v, some "Trace".data = some v → v.length ≠ 5 →
        get_default_log_level (some "Trace".data) = LogLevel.info)
    ∧ get_default_log_level (some "Trace".data)
        ∈ [LogLevel.trace, LogLevel.debug, LogLevel.info]
    ∧ get_default_log_level (some "Trace".data)
        ∉ [LogLevel.warn, LogLevel.err, LogLevel.critical]
    ∧ get_default_log_level (some "TRACE ".data) = LogLevel.info
    ∧ get_default_log_level (some "DEBUGGING".data) = LogLevel.info)
    ∧ eqIgnoreCase "Trace".data "TRACE".data
    ∧ get_default_log_level (some "Trace".data) = LogLevel.trace :=
  ⟨fun v hv => by cases hv; decide,
   get_default_log_level_spec (some "Trace".data) (fun v hv => by cases hv; decide),
   by decide, by decide⟩

/-! ### Lemmas on the destination bits -/

theorem land_two_pow_ne_zero_iff (n : Int) (k : Nat) :
    Int.land n ((2 ^ k : Nat) : Int) ≠ 0 ↔ n.testBit k = true := by
  cases n with
  | ofNat m =>
    show (((m &&& 2 ^ k : Nat)) : Int) ≠ 0 ↔ m.testBit k = true
    rw [Nat.and_two_pow]
    cases h : m.testBit k
    · simp
    · have : (2 : Nat) ^ k ≠ 0 := by positivity
      simp [this]
  | negSucc m =>
    show (((Nat.ldiff (2 ^ k) m : Nat)) : Int) ≠ 0 ↔ (!m.testBit k) = true
    cases h : m.testBit k
    · have hb : (Nat.ldiff (2 ^ k) m).testBit k = true := by
        rw [Nat.testBit_ldiff, h]; simp [Nat.testBit_two_pow_self]
      have hne : Nat.ldiff (2 ^ k) m ≠ 0 := by
        intro h0; rw [h0] at hb; simp at hb
      simp [hne]
    · have h0 : Nat.ldiff (2 ^ k) m = 0 := by
        apply Nat.eq_of_testBit_eq
        intro j
        rw [Nat.testBit_ldiff, Nat.zero_testBit]
        by_cases hj : k = j
        · subst hj; simp [h]
        · simp [Nat.testBit_two_pow, hj]
      simp [h0]

theorem console_bit (n : Int) : Int.land n LOG_DST_CONSOLE ≠ 0 ↔ n.testBit 0 = true :=
  land_two_pow_ne_zero_iff n 0

theorem file_bit (n : Int) : Int.land n LOG_DST_FILE ≠ 0 ↔ n.testBit 1 = true :=
  land_two_pow_ne_zero_iff n 1

theorem color_bit (n : Int) : Int.land n LOG_DST_COLOR ≠ 0 ↔ n.testBit 2 = true :=
  land_two_pow_ne_zero_iff n 2

/-! ### Lemmas on the sink list -/

/-- The color sink after the six `set_color` calls of the constructor. -/
theorem install_colors_eq :
    install_colors (ansicolor_sink.ctor FILE.stdout FILE.stderr LogLevel.err)
      = some ⟨FILE.stdout, FILE.stderr, LogLevel.err,
          [(LogLevel.trace, AnsiColor.cyan), (LogLevel.debug, AnsiColor.blue),
           (LogLevel.info, AnsiColor.green), (LogLevel.warn, AnsiColor.yellow),
           (LogLevel.err, AnsiColor.red), (LogLevel.critical, AnsiColor.red)]⟩ := by
  decide

theorem build_sinks_eq (config : LoggerConfig) :
    build_sinks config = some
      ((if config.log_dst.testBit 0 = true then
          [if config.log_dst.testBit 2 = true then
             Sink.color_sink ⟨FILE.stdout, FILE.stderr, LogLevel.err,
               [(LogLevel.trace, AnsiColor.cyan), (LogLevel.debug, AnsiColor.blue),
                (LogLevel.info, AnsiColor.green), (LogLevel.warn, AnsiColor.yellow),
                (LogLevel.err, AnsiColor.red), (LogLevel.critical, AnsiColor.red)]⟩
           else Sink.split_sink]
        else [])
       ++ (if config.log_dst.testBit 1 = true then
          [Sink.rotating_file_sink config.rotate_basename config.rotate_max_file_size
            config.rotate_max_file_num config.rotate_check_at_first]
        else [])) := by
  unfold build_sinks
  simp only [console_bit, file_bit, color_bit, install_colors_eq]
  by_cases h0 : config.log_dst.testBit 0 = true <;>
  by_cases h1 : config.log_dst.testBit 1 = true <;>
  by_cases h2 : config.log_dst.testBit 2 = true <;>
  simp [h0, h1, h2]

theorem Logger_ctor_total (config : LoggerConfig) : ∃ l, Logger.ctor config = some l := by
  unfold Logger.ctor
  rw [build_sinks_eq]
  exact ⟨_, rfl⟩

theorem get_logger_total (mem : Nat → LoggerConfig) (env : Option (List Char))
    (r : Registry) : ∃ l r1, get_logger mem env r = some (l, r1) := by
  unfold get_logger
  cases h : r.logger with
  | some l => exact ⟨l, r, rfl⟩
  | none =>
    obtain ⟨l, hl⟩ := Logger_ctor_total
      (match r.p_config with
        | some addr => mem addr
        | none => LoggerConfig.ctor env)
    refine ⟨l, { r with logger := some l, constructions := r.constructions + 1 }, ?_⟩
    simp [hl]

/-! ### Lemmas on the registry -/

theorem runCalls_constructed (mem : Nat → LoggerConfig) (env : Option (List Char))
    (l : Logger) (calls : List RegistryCall) (r : Registry) (h : r.logger = some l) :
    ∃ r1, runCalls mem env calls r = some (List.replicate (countGets calls) l, r1)
      ∧ r1.logger = some l ∧ r1.constructions = r.constructions := by
  induction calls generalizing r with
  | nil => exact ⟨r, rfl, h, rfl⟩
  | cons c rest ih =>
    cases c with
    | setup addr =>
      obtain ⟨r1, h1, h2, h3⟩ := ih (setup_logger_config addr r) h
      refine ⟨r1, ?_, h2, h3⟩
      simpa [runCalls, countGets] using h1
    | get =>
      obtain ⟨r1, h1, h2, h3⟩ := ih r h
      refine ⟨r1, ?_, h2, h3⟩
      have hg : get_logger mem env r = some (l, r) := by simp [get_logger, h]
      simp only [countGets] at h1
      simp [runCalls, hg, h1, countGets, List.replicate_succ]

theorem runCalls_fresh (mem : Nat → LoggerConfig) (env : Option (List Char))
    (calls : List RegistryCall) (r : Registry) (h : r.logger = none) (l : Logger)
    (hl : Logger.ctor (match injectedBefore calls r.p_config with
        | some addr => mem addr
        | none => LoggerConfig.ctor env) = some l) :
    ∃ r1, runCalls mem env calls r = some (List.replicate (countGets calls) l, r1)
      ∧ r1.constructions = r.constructions + min 1 (countGets calls) := by
  induction calls generalizing r with
  | nil => exact ⟨r, rfl, by simp [countGets]⟩
  | cons c rest ih =>
    cases c with
    | setup addr =>
      obtain ⟨r1, h1, h2⟩ := ih (setup_logger_config addr r) h hl
      refine ⟨r1, ?_, ?_⟩
      · simpa [runCalls, countGets] using h1
      · simpa [countGets, setup_logger_config] using h2
    | get =>
      simp only [injectedBefore] at hl
      have hg : get_logger mem env r
          = some (l, { r with logger := some l, constructions := r.constructions + 1 }) := by
        simp [get_logger, h, hl]
      obtain ⟨r1, h1, _, h3⟩ := runCalls_constructed mem env l rest
        { r with logger := some l, constructions := r.constructions + 1 } rfl
      refine ⟨r1, ?_, ?_⟩
      · simp only [countGets] at h1
        simp [runCalls, hg, h1, countGets, List.replicate_succ]
      · simp only [h3, countGets, List.count_cons_self]
        omega

theorem injectedBefore_get (pre post : List RegistryCall) (cur : Option Nat) :
    injectedBefore (pre ++ RegistryCall.get :: post) cur
      = injectedBefore (pre ++ [RegistryCall.get]) cur := by
  induction pre generalizing cur with
  | nil => rfl
  | cons c rest ih =>
    cases c with
    | setup addr => simpa [injectedBefore] using ih (some addr)
    | get => rfl

/-! ### Lemmas on the logging statements -/

theorem exec_aborted (mem : Nat → LoggerConfig) (env : Option (List Char)) (s : LogStmt)
    (p : Process) (h : p.aborted = true) : s.exec mem env p = some p := by
  cases s with
  | log level text => simp [LogStmt.exec, CHIKA_LOG, h]
  | fatal text =>
    simp [LogStmt.exec, CHIKA_LOG_FATAL, CHIKA_LOG, get_logger_Flush, spdlog_shutdown, abort, h]

theorem execAll_aborted (mem : Nat → LoggerConfig) (env : Option (List Char))
    (stmts : List LogStmt) (p : Process) (h : p.aborted = true) :
    execAll mem env stmts p = some p := by
  induction stmts with
  | nil => rfl
  | cons s rest ih => simp [execAll, exec_aborted mem env s p h, ih]

/-! ## The sinks -/

/-- Whatever the record, `sink_it_` makes one `fmt::print` call, on the error
stream exactly when the severity is err or critical, with the formatted record
as the format string. -/
theorem sink_it_stream (formatter : log_msg → String) (msg : log_msg) (tr : List Effect) :
    (msg.level.toNat ≥ LogLevel.err.toNat
        ↔ msg.level = LogLevel.err ∨ msg.level = LogLevel.critical)
    ∧ ConsoleSplitSink.sink_it_ formatter msg tr
        = fmt_print
            (if msg.level = LogLevel.err ∨ msg.level = LogLevel.critical
              then FILE.stderr else FILE.stdout)
            (formatter msg) tr := by
  have hlev : msg.level.toNat ≥ LogLevel.err.toNat
      ↔ msg.level = LogLevel.err ∨ msg.level = LogLevel.critical := by
    cases msg.level <;> simp [LogLevel.toNat]
  refine ⟨hlev, ?_⟩
  unfold ConsoleSplitSink.sink_it_
  simp only [hlev]

/-- A formatted record without braces is written as it stands, to the error
stream exactly when the severity is err or critical and to the standard stream
otherwise. -/
theorem sink_it_brace_free (formatter : log_msg → String) (msg : log_msg)
    (tr : List Effect) (hfree : BraceFree (formatter msg).data) :
    ConsoleSplitSink.sink_it_ formatter msg tr
      = ⟨tr ++ [Effect.print
            (if msg.level = LogLevel.err ∨ msg.level = LogLevel.critical
              then FILE.stderr else FILE.stdout)
            (formatter msg)], false⟩ := by
  rw [(sink_it_stream formatter msg tr).2]
  unfold fmt_print
  rw [fmt_render_brace_free _ hfree]

/-- Every color console sink the Logger constructor builds is constructed from
(stdout, stderr, err). -/
theorem color_sink_ctor_args (config : LoggerConfig) (sinks : List Sink)
    (s : ansicolor_sink) (hb : build_sinks config = some sinks)
    (hmem : Sink.color_sink s ∈ sinks) :
    s.target_out = FILE.stdout ∧ s.target_err = FILE.stderr
      ∧ s.err_level = LogLevel.err := by
  rw [build_sinks_eq] at hb
  cases hb
  by_cases h0 : config.log_dst.testBit 0 = true <;>
  by_cases h1 : config.log_dst.testBit 1 = true <;>
  by_cases h2 : config.log_dst.testBit 2 = true <;>
  simp [h0, h1, h2] at hmem <;> subst hmem <;> exact ⟨rfl, rfl, rfl⟩

/-- C5: the claim says every record handled by `ConsoleSplitSink::sink_it_` is
written to exactly one stream, the standard stream for a severity below err.
The code passes the formatted record to `fmt::print` as the format string. For
the info record whose formatted text is an x, an equals sign, an opening and a
closing brace, the call is left by `fmt::format_error` and nothing is written
to either stream; for the warn record whose formatted text is a doubled opening
brace, a single brace is written to the standard stream, not the record. -/
theorem split_sink_format_string_failure :
    (ConsoleSplitSink.sink_it_ (fun m => m.payload)
        ⟨LogLevel.info, "x=\x7b\x7d"⟩ []).format_error = true
    ∧ written FILE.stdout (ConsoleSplitSink.sink_it_ (fun m => m.payload)
        ⟨LogLevel.info, "x=\x7b\x7d"⟩ []).trace = []
    ∧ written FILE.stderr (ConsoleSplitSink.sink_it_ (fun m => m.payload)
        ⟨LogLevel.info, "x=\x7b\x7d"⟩ []).trace = []
    ∧ written FILE.stdout (ConsoleSplitSink.sink_it_ (fun m => m.payload)
        ⟨LogLevel.warn, "\x7b\x7b"⟩ []).trace = ["\x7b"]
    ∧ ConsoleSplitSink.sink_it_ (fun m => m.payload) ⟨LogLevel.info, "x=1"⟩ []
        = ⟨[Effect.print FILE.stdout "x=1"], false⟩
    ∧ ConsoleSplitSink.sink_it_ (fun m => m.payload) ⟨LogLevel.err, "x=1"⟩ []
        = ⟨[Effect.print FILE.stderr "x=1"], false⟩ := by
  decide

/-- C9: for every destination bitmask, the sink list the Logger constructor
builds is: one console sink exactly when bit 0x01 is set, the color sink when
bit 0x04 is set too and the split sink otherwise; then one rotating file sink
exactly when bit 0x02 is set, made from the basename, maximum size, maximum
number and check-at-first flag of the configuration. So the list has
(bit 0x01 ? 1 : 0) + (bit 0x02 ? 1 : 0) sinks, console before file, and the
masks 0 and 0x04 give no sink. -/
theorem sink_list_by_bitmask (config : LoggerConfig) :
    build_sinks config = some
      ((if config.log_dst.testBit 0 = true then
          [if config.log_dst.testBit 2 = true then
             Sink.color_sink ⟨FILE.stdout, FILE.stderr, LogLevel.err,
               [(LogLevel.trace, AnsiColor.cyan), (LogLevel.debug, AnsiColor.blue),
                (LogLevel.info, AnsiColor.green), (LogLevel.warn, AnsiColor.yellow),
                (LogLevel.err, AnsiColor.red), (LogLevel.critical, AnsiColor.red)]⟩
           else Sink.split_sink]
        else [])
       ++ (if config.log_dst.testBit 1 = true then
          [Sink.rotating_file_sink config.rotate_basename config.rotate_max_file_size
            config.rotate_max_file_num config.rotate_check_at_first]
        else []))
    ∧ (build_sinks config).map List.length
        = some ((if config.log_dst.testBit 0 = true then 1 else 0)
            + (if config.log_dst.testBit 1 = true then 1 else 0))
    ∧ build_sinks { config with log_dst := 0 } = some []
    ∧ build_sinks { config with log_dst := LOG_DST_COLOR } = some [] := by
  refine ⟨build_sinks_eq config, ?_, ?_, ?_⟩
  · rw [build_sinks_eq]
    by_cases h0 : config.log_dst.testBit 0 = true <;>
    by_cases h1 : config.log_dst.testBit 1 = true <;>
    simp [h0, h1]
  · rw [build_sinks_eq]
    rfl
  · rw [build_sinks_eq]
    rfl

/-- C7: when the Logger is constructed with the console bit and the color bit
both set, the first sink is the color console sink, and it has received one
`set_color` call for each of the six severities: trace cyan, debug blue, info
green, warn yellow, err red, critical red. Both arrays have length 6, which is
`level_num`, so every index the loop uses is inside both arrays. -/
theorem color_mapping (config : LoggerConfig)
    (hconsole : config.log_dst.testBit 0 = true)
    (hcolor : config.log_dst.testBit 2 = true) :
    ∃ s rest, build_sinks config = some (Sink.color_sink s :: rest)
      ∧ s.color LogLevel.trace = some AnsiColor.cyan
      ∧ s.color LogLevel.debug = some AnsiColor.blue
      ∧ s.color LogLevel.info = some AnsiColor.green
      ∧ s.color LogLevel.warn = some AnsiColor.yellow
      ∧ s.color LogLevel.err = some AnsiColor.red
      ∧ s.color LogLevel.critical = some AnsiColor.red
      ∧ (∀ level : LogLevel, (s.colors_.map Prod.fst).count level = 1)
      ∧ s_level_list.length = 6 ∧ s_level_color.length = 6 ∧ level_num = 6
      ∧ (∀ i, i < level_num →
          (∃ level, s_level_list[i]? = some level)
            ∧ ∃ color, s_level_color[i]? = some color) := by
  refine ⟨⟨FILE.stdout, FILE.stderr, LogLevel.err,
      [(LogLevel.trace, AnsiColor.cyan), (LogLevel.debug, AnsiColor.blue),
       (LogLevel.info, AnsiColor.green), (LogLevel.warn, AnsiColor.yellow),
       (LogLevel.err, AnsiColor.red), (LogLevel.critical, AnsiColor.red)]⟩,
    (if config.log_dst.testBit 1 = true then
      [Sink.rotating_file_sink config.rotate_basename config.rotate_max_file_size
        config.rotate_max_file_num config.rotate_check_at_first]
     else []), ?_, ?_⟩
  · rw [build_sinks_eq]
    simp only [hconsole, hcolor, if_true]
    rfl
  · refine ⟨rfl, rfl, rfl, rfl, rfl, rfl, ?_, rfl, rfl, rfl, ?_⟩
    · intro level
      cases level <;> decide
    · intro i hi
      have hi6 : i < 6 := hi
      interval_cases i <;> exact ⟨⟨_, rfl⟩, ⟨_, rfl⟩⟩

/-- The color mapping statement, applied to the mask console | color. -/
theorem color_mapping_witness :
    ({ LoggerConfig.ctor none with log_dst := 5 } : LoggerConfig).log_dst.testBit 0 = true
    ∧ ({ LoggerConfig.ctor none with log_dst := 5 } : LoggerConfig).log_dst.testBit 2 = true
    ∧ ∃ s rest, build_sinks { LoggerConfig.ctor none with log_dst := 5 }
        = some (Sink.color_sink s :: rest)
      ∧ s.color LogLevel.trace = some AnsiColor.cyan
      ∧ s.color LogLevel.debug = some AnsiColor.blue
      ∧ s.color LogLevel.info = some AnsiColor.green
      ∧ s.color LogLevel.warn = some AnsiColor.yellow
      ∧ s.color LogLevel.err = some AnsiColor.red
      ∧ s.color LogLevel.critical = some AnsiColor.red
      ∧ (∀ level : LogLevel, (s.colors_.map Prod.fst).count level = 1)
      ∧ s_level_list.length = 6 ∧ s_level_color.length = 6 ∧ level_num = 6
      ∧ (∀ i, i < level_num →
          (∃ level, s_level_list[i]? = some level)
            ∧ ∃ color, s_level_color[i]? = some color) :=
  ⟨by decide, by decide,
   color_mapping { LoggerConfig.ctor none with log_dst := 5 } (by decide) (by decide)⟩

/-! ## The registry -/

/-- C6: for every sequence of `setup_logger_config` and `get_logger` calls run
from process start, every `get_logger` call returns and all of them return the
same Logger; it is constructed exactly once when the sequence has a
`get_logger` call (and not at all otherwise), from the configuration at the
address injected last before the first `get_logger` call, or from a default
`LoggerConfig` when none was injected; and a `setup_logger_config` call made
after a `get_logger` call changes nothing in what the `get_logger` calls
return. -/
theorem registry_single_instance (mem : Nat → LoggerConfig) (env : Option (List Char))
    (calls : List RegistryCall) :
    ∃ l r1,
      Logger.ctor (match injectedBefore calls none with
          | some addr => mem addr
          | none => LoggerConfig.ctor env) = some l
      ∧ runCalls mem env calls Registry.init
          = some (List.replicate (countGets calls) l, r1)
      ∧ r1.constructions = min 1 (countGets calls)
      ∧ ∀ (mid post : List RegistryCall) (addr : Nat),
          (runCalls mem env
              (calls ++ RegistryCall.get :: (mid ++ RegistryCall.setup addr :: post))
              Registry.init).map Prod.fst
            = (runCalls mem env (calls ++ RegistryCall.get :: (mid ++ post))
              Registry.init).map Prod.fst := by
  obtain ⟨l, hl⟩ := Logger_ctor_total
    (match injectedBefore calls none with
      | some addr => mem addr
      | none => LoggerConfig.ctor env)
  obtain ⟨r1, h1, h2⟩ := runCalls_fresh mem env calls Registry.init rfl l hl
  refine ⟨l, r1, hl, h1, ?_, ?_⟩
  · simpa [Registry.init] using h2
  · intro mid post addr
    obtain ⟨l2, hl2⟩ := Logger_ctor_total
      (match injectedBefore (calls ++ [RegistryCall.get]) none with
        | some addr => mem addr
        | none => LoggerConfig.ctor env)
    have ha := hl2
    have hb := hl2
    rw [← injectedBefore_get calls (mid ++ RegistryCall.setup addr :: post) none] at ha
    rw [← injectedBefore_get calls (mid ++ post) none] at hb
    obtain ⟨ra, ha1, _⟩ := runCalls_fresh mem env _ Registry.init rfl l2 ha
    obtain ⟨rb, hb1, _⟩ := runCalls_fresh mem env _ Registry.init rfl l2 hb
    rw [ha1, hb1]
    simp [countGets]

/-! ## The fatal escalation -/

/-- C8: in a running process, every `CHIKA_LOG_FATAL` statement completes and
performs exactly four effects, in this order: the record handed to the logger
at critical severity, the flush of the Logger, `spdlog::shutdown()`, and
`abort()`; afterwards the process has aborted and no later logging statement
has any effect. -/
theorem fatal_escalation (mem : Nat → LoggerConfig) (env : Option (List Char))
    (text : String) (p : Process) (hrun : p.aborted = false) :
    ∃ p1, CHIKA_LOG_FATAL mem env text p = some p1
      ∧ p1.effects = p.effects
          ++ [Effect.log LogLevel.critical text, Effect.flush, Effect.shutdown, Effect.abort]
      ∧ p1.aborted = true
      ∧ ∀ stmts : List LogStmt, execAll mem env stmts p1 = some p1 := by
  obtain ⟨l, r1, hg1⟩ := get_logger_total mem env p.registry
  obtain ⟨l2, r2, hg2⟩ := get_logger_total mem env r1
  have hp1 : CHIKA_LOG_FATAL mem env text p
      = some { registry := r2, aborted := true,
               effects := p.effects ++ [Effect.log LogLevel.critical text, Effect.flush,
                 Effect.shutdown, Effect.abort] } := by
    simp [CHIKA_LOG_FATAL, CHIKA_LOG, get_logger_Flush, spdlog_shutdown, abort,
      SPDLOG_LOGGER, hrun, hg1, hg2]
  exact ⟨_, hp1, rfl, rfl, fun stmts => execAll_aborted mem env stmts _ rfl⟩

/-- The fatal escalation statement, applied to a process that has just started. -/
theorem fatal_escalation_witness :
    (⟨Registry.init, false, []⟩ : Process).aborted = false
    ∧ ∃ p1, CHIKA_LOG_FATAL (fun _ => LoggerConfig.ctor none) none "fatal"
          ⟨Registry.init, false, []⟩ = some p1
      ∧ p1.effects = (⟨Registry.init, false, []⟩ : Process).effects
          ++ [Effect.log LogLevel.critical "fatal", Effect.flush, Effect.shutdown,
              Effect.abort]
      ∧ p1.aborted = true
      ∧ ∀ stmts : List LogStmt,
          execAll (fun _ => LoggerConfig.ctor none) none stmts p1 = some p1 :=
  ⟨rfl, fatal_escalation (fun _ => LoggerConfig.ctor none) none "fatal"
    ⟨Registry.init, false, []⟩ rfl⟩

end chika
